import Mathlib

/-!
# Verification of the jumpy session-management subsystem

Shallow embedding of `src/session.rs`: the `LocalSessionRunner` fixed-step
accumulator, the session-runner contract, local input collection, and the
driver loop / disconnect teardown.

Real-valued `f64` time arithmetic is idealised as exact rational arithmetic
(`ℚ`).  Wall-clock readings (`Instant::now()`) are nondeterministic
environment inputs; each call to `run_criteria` receives the two readings the
source can take (one inside `get_or_insert_with`, one for the elapsed-time
measurement) as explicit `ℚ` arguments.
-/

namespace Jumpy

/-- Modelled from the spec: player metadata handles (`core_meta.players[i]`)
are opaque values cloned into input slots; only their identity matters here. -/
abbrev PlayerMeta := Nat

/-- Modelled from the spec: the local-only editor-override payload merged into
slot 0; its contents are opaque to this subsystem. -/
abbrev EditorInput := Nat

/-- Per-player control record (`jumpy_core::input::PlayerControl`).
Modelled from the spec: the core's input table record with edge-triggered
booleans, a continuous movement vector and pressed flags; only the fields
touched by `collect_local_input` are included. -/
structure PlayerControl where
  jump_pressed : Bool
  jump_just_pressed : Bool
  grab_pressed : Bool
  grab_just_pressed : Bool
  shoot_pressed : Bool
  shoot_just_pressed : Bool
  move_direction : ℚ × ℚ
  just_moved : Bool
  deriving Repr, DecidableEq, Inhabited

/-- Modelled from the spec: one slot of the Per-Player Input Table:
a control record plus active / AI flags, the selected player metadata and the
editor-override payload. -/
structure PlayerInput where
  control : PlayerControl
  active : Bool
  selected_player : PlayerMeta
  is_ai : Bool
  editor_input : Option EditorInput
  deriving Repr, DecidableEq, Inhabited

/-- Modelled from the spec: the Per-Player Input Table
(`jumpy_core::input::PlayerInputs`), a fixed-size ordered sequence of slots. -/
structure PlayerInputs where
  players : List PlayerInput
  deriving Repr, DecidableEq, Inhabited

/-- Modelled from the spec: the core metadata (`CoreMetaArc`) consulted by
`ensure_2_players` for the default selected players. -/
structure CoreMeta where
  players : List PlayerMeta
  deriving Repr, DecidableEq, Inhabited

/-- Modelled from the spec: the configuration (`CoreSessionInfo`) a session is
created from; `restart` resets the core back to exactly this configuration. -/
structure CoreSessionInfo where
  meta : CoreMeta
  initial_inputs : PlayerInputs
  initial_state : Nat
  deriving Repr, DecidableEq, Inhabited

/-- Modelled from the spec: the Simulation Core (`jumpy_core`'s `CoreSession`):
the deterministic world (input table plus an abstract remainder `state`),
together with the configuration used by `restart`. -/
structure CoreSession where
  info : CoreSessionInfo
  player_inputs : PlayerInputs
  state : Nat
  deriving Repr, DecidableEq, Inhabited

/-- Modelled from the spec: `CoreSession::new(info)` builds the core in its
initial configured state. -/
def CoreSession.new (info : CoreSessionInfo) : CoreSession :=
  { info := info
    player_inputs := info.initial_inputs
    state := info.initial_state }

/-- Modelled from the spec: `restart()` resets the owned Simulation Core to
its initial configured state without destroying the session. -/
def CoreSession.restart (c : CoreSession) : CoreSession :=
  CoreSession.new c.info

/-- Replace the element at index `n`, leaving the list unchanged out of
bounds (Rust's `players[i] = ...` panics out of bounds; every claim below is
stated with the index in range). -/
def modifyIdx (f : α → α) : Nat → List α → List α
  | _, [] => []
  | 0, a :: as => f a :: as
  | n + 1, a :: as => a :: modifyIdx f n as

/-- `update_input(|inputs| inputs.players[idx].control.clone())`: read one
control record from the core's input table. -/
def CoreSession.get_control (c : CoreSession) (idx : Nat) : PlayerControl :=
  (c.player_inputs.players.getD idx default).control

/-- `update_input(|inputs| inputs.players[idx].control = control)`: write one
control record into the core's input table. -/
def CoreSession.set_control (c : CoreSession) (idx : Nat) (ctl : PlayerControl) :
    CoreSession :=
  { c with player_inputs :=
      ⟨modifyIdx (fun p => { p with control := ctl }) idx c.player_inputs.players⟩ }

/-- `ShouldRun`: whether or not a session advance should be run
(`src/session.rs`, lines 151–156). -/
inductive ShouldRun where
  | Yes
  | No
  | YesAndCheckAgain
  deriving Repr, DecidableEq, Inhabited

/-- `SessionError`: possible errors returned by `SessionRunner::advance`
(`src/session.rs`, lines 121–125). -/
inductive SessionError where
  | Disconnected
  deriving Repr, DecidableEq, Inhabited

/-- `LocalSessionRunner` (`src/session.rs`, lines 131–135): the owned core
plus the fixed-step accumulator and the optional loop-start timestamp.  The
timestamp is an absolute wall-clock instant, modelled as `ℚ`. -/
structure LocalSessionRunner where
  core : CoreSession
  accumulator : ℚ
  loop_start : Option ℚ
  deriving Repr, DecidableEq

/-- `LocalSessionRunner::new` (`src/session.rs`, lines 137–148): zero
accumulator, no loop-start timestamp. -/
def LocalSessionRunner.new (core : CoreSession) : LocalSessionRunner :=
  { core := core, accumulator := 0, loop_start := none }

/-- The fixed step duration: `const STEP: f64 = 1.0 / jumpy_core::FPS as f64`.
`jumpy_core::FPS` is not among the reviewed sources, so the frame rate is kept
as a parameter. -/
def STEP (fps : Nat) : ℚ := 1 / (fps : ℚ)

/-- The accumulator value `run_criteria` works with after its first two
statements: the frame delta is added only when no catch-up loop is in
progress (`src/session.rs`, lines 181–183). -/
def accEnter (s : LocalSessionRunner) (delta : ℚ) : ℚ :=
  if s.loop_start.isNone then s.accumulator + delta else s.accumulator

/-- `LocalSessionRunner::run_criteria` (`src/session.rs`, lines 178–203).
`delta` is `time.delta_seconds_f64()`; `now1` is the `Instant::now()` reading
taken by `get_or_insert_with` (used only when `loop_start` is `None`) and
`now2` the reading used for the elapsed-time measurement. -/
def LocalSessionRunner.run_criteria (s : LocalSessionRunner)
    (delta now1 now2 : ℚ) (fps : Nat) : LocalSessionRunner × ShouldRun :=
  let acc := accEnter s delta
  if STEP fps ≤ acc then
    let start := s.loop_start.getD now1
    if STEP fps < now2 - start then
      ({ s with accumulator := 0, loop_start := none }, ShouldRun.No)
    else
      ({ s with accumulator := acc - STEP fps, loop_start := some start },
        ShouldRun.YesAndCheckAgain)
  else
    ({ s with accumulator := acc, loop_start := none }, ShouldRun.No)

/-- `LocalSessionRunner::restart` (`src/session.rs`, lines 169–171): forward
to the core's restart, touching nothing else. -/
def LocalSessionRunner.restart (s : LocalSessionRunner) : LocalSessionRunner :=
  { s with core := s.core.restart }

/-- `LocalSessionRunner::advance` (`src/session.rs`, lines 173–177): step the
core once and return `Ok(())`.  The core's own step function (external to this
subsystem) is passed in as `stepCore`. -/
def LocalSessionRunner.advance (stepCore : CoreSession → CoreSession)
    (s : LocalSessionRunner) : LocalSessionRunner × Except SessionError Unit :=
  ({ s with core := stepCore s.core }, Except.ok ())

/-- `LocalSessionRunner::network_player_idx` (`src/session.rs`, lines
204–206): always `None`. -/
def LocalSessionRunner.network_player_idx (_ : LocalSessionRunner) : Option Nat :=
  none

/-- Modelled from the spec: the Networked session runner
(`crate::networking::GgrsSessionRunner`, not among the reviewed sources).
It owns the shared core, the stable slot index assigned to the local
participant, and the transport's irrecoverable-disconnection signal; per §4.3
and §7 its `advance` returns `Disconnected` exactly when that signal is set. -/
structure GgrsSessionRunner where
  core : CoreSession
  local_player_idx : Nat
  disconnected : Bool
  deriving Repr, DecidableEq

/-- The `Session` resource: a boxed `SessionRunner` trait object
(`src/session.rs`, lines 80–82), one variant per runner implementation. -/
inductive Session where
  | loc (runner : LocalSessionRunner)
  | networked (runner : GgrsSessionRunner)
  deriving Repr, DecidableEq

/-- `SessionRunner::core_session`: mutable access to the owned core. -/
def Session.core_session : Session → CoreSession
  | .loc r => r.core
  | .networked r => r.core

/-- Put a mutated core back into the runner (the write half of the `&mut`
access `core_session` grants in Rust). -/
def Session.with_core : Session → CoreSession → Session
  | .loc r, c => .loc { r with core := c }
  | .networked r, c => .networked { r with core := c }

/-- `SessionRunner::network_player_idx`: `None` for local games; the local
participant's network slot for networked games (`src/session.rs`, lines
112–117 and 204–206). -/
def Session.network_player_idx : Session → Option Nat
  | .loc r => r.network_player_idx
  | .networked r => some r.local_player_idx

/-- The trait-level `get_player_input` (`src/session.rs`, lines 99–103):
read slot `player_idx` of the core's input table. -/
def Session.get_player_input (s : Session) (player_idx : Nat) : PlayerControl :=
  s.core_session.get_control player_idx

/-- `set_player_input` (`src/session.rs`, lines 104–105 and 163–167): write
slot `player_idx` of the core's input table. -/
def Session.set_player_input (s : Session) (player_idx : Nat)
    (control : PlayerControl) : Session :=
  s.with_core (s.core_session.set_control player_idx control)

/-- `SessionRunner::advance` dispatched over the two variants.  `stepCore` is
the external Simulation Core step; `netSteps` abstracts how many core steps
the rollback transport authorises for this call (§4.3: zero or more). -/
def Session.advance (stepCore : CoreSession → CoreSession) (netSteps : Nat) :
    Session → Session × Except SessionError Unit
  | .loc r =>
    let (r', res) := r.advance stepCore
    (.loc r', res)
  | .networked r =>
    if r.disconnected then
      (.networked r, Except.error SessionError.Disconnected)
    else
      (.networked { r with core := stepCore^[netSteps] r.core }, Except.ok ())

/-- `f32::MIN_POSITIVE`, the dead-zone threshold on the squared movement
vector length: `2 ^ (-126)` as an exact rational. -/
def f32_min_positive : ℚ := 1 / 2 ^ 126

/-- Squared length of a movement vector (`Vec2::length_squared`). -/
def length_squared (v : ℚ × ℚ) : ℚ := v.1 * v.1 + v.2 * v.2

/-- The raw action state read for one player collector: pressed flags for the
three buttons plus the movement axis pair (`src/session.rs`, lines 314–327). -/
structure ActionState where
  jump_pressed : Bool
  grab_pressed : Bool
  shoot_pressed : Bool
  move_axis : ℚ × ℚ
  deriving Repr, DecidableEq, Inhabited

/-- The per-player body of `collect_local_input` (`src/session.rs`, lines
312–329): recompute the edge-triggered fields against the previous-frame
record `control` and overwrite the pressed flags and movement state. -/
def update_control (control : PlayerControl) (action_state : ActionState) :
    PlayerControl :=
  let jump_pressed := action_state.jump_pressed
  let c := { control with
    jump_just_pressed := jump_pressed && !control.jump_pressed
    jump_pressed := jump_pressed }
  let grab_pressed := action_state.grab_pressed
  let c := { c with
    grab_just_pressed := grab_pressed && !c.grab_pressed
    grab_pressed := grab_pressed }
  let shoot_pressed := action_state.shoot_pressed
  let c := { c with
    shoot_just_pressed := shoot_pressed && !c.shoot_pressed
    shoot_pressed := shoot_pressed }
  let was_moving := length_squared c.move_direction > f32_min_positive
  let move_direction := action_state.move_axis
  let is_moving := length_squared move_direction > f32_min_positive
  { c with
    move_direction := move_direction
    just_moved := !was_moving && is_moving }

/-- The body of `collect_local_input`'s `for` loop over the collector query
(`src/session.rs`, lines 301–332): skip non-zero UI slots in a network game
and AI slots; otherwise recompute the slot's control record and write it to
the network slot when one is present, else to the UI slot itself. -/
def collect_step (network_player_idx : Option Nat) (s : Session)
    (c : Nat × ActionState) : Session :=
  let player_idx := c.1
  let action_state := c.2
  let is_ai :=
    (s.core_session.player_inputs.players.getD player_idx default).is_ai
  if (player_idx ≠ 0 && network_player_idx.isSome) || is_ai then s
  else
    let control := s.get_player_input player_idx
    let control := update_control control action_state
    s.set_player_input (network_player_idx.getD player_idx) control

/-- `collect_local_input` (`src/session.rs`, lines 286–333).  `collectors` is
the `PlayerInputCollector` query, one `(ui slot index, action state)` pair per
entity; `editor` is the `CurrentEditorInput` resource.  Returns the updated
session and the resource's value afterwards (`take()` empties it, and is only
reached for a local runner, which also receives the taken payload in slot 0's
`editor_input`). -/
def collect_local_input (collectors : List (Nat × ActionState))
    (editor : Option EditorInput) (session : Session) :
    Session × Option EditorInput :=
  let network_player_idx := session.network_player_idx
  let (session, editorAfter) :=
    match session with
    | .loc r =>
      (Session.loc { r with core := { r.core with player_inputs :=
          ⟨modifyIdx (fun p => { p with editor_input := editor }) 0
            r.core.player_inputs.players⟩ } }, none)
    | s => (s, editor)
  (collectors.foldl (collect_step network_player_idx) session, editorAfter)

/-- `ensure_2_players` (`src/session.rs`, lines 271–283): if no slot is
active, activate slots 0 and 1 with the default selected players from the
core metadata; otherwise leave everything alone. -/
def ensure_2_players (core_meta : CoreMeta) (player_inputs : PlayerInputs) :
    PlayerInputs :=
  if player_inputs.players.all (fun x => !x.active) then
    ⟨(List.range 2).foldl (fun ps i =>
        modifyIdx (fun p => { p with
          active := true
          selected_player := core_meta.players.getD i default }) i ps)
      player_inputs.players⟩
  else player_inputs

/-- `EngineState` (external state machine): only the two values the reviewed
code compares against matter here. -/
inductive EngineState where
  | MainMenu
  | InGame
  deriving Repr, DecidableEq

/-- `InGameState` (external state machine). -/
inductive InGameState where
  | Playing
  | Paused
  deriving Repr, DecidableEq

/-- `MenuPage` resource; `update_game` forces it to `Home`. -/
inductive MenuPage where
  | Home
  | Other
  deriving Repr, DecidableEq

/-- The slice of the bevy `World` the reviewed systems touch: the optional
`Session` resource, the `is_active` flags of the `MenuCamera` cameras, the
`MenuPage` resource, the current engine/in-game states and their pending
`NextState` transitions. -/
structure World where
  session : Option Session
  menu_cameras : List Bool
  menu_page : Option MenuPage
  engine_state : EngineState
  in_game_state : InGameState
  next_engine_state : Option EngineState
  next_in_game_state : Option InGameState
  deriving Repr, DecidableEq

/-- `update_game` (`src/session.rs`, lines 336–360): take the session out of
the world (`unwrap` panics when absent, modelled as `none`), advance it, and
reinsert it only on success.  On `Disconnected`: activate every menu camera,
go back to the `Home` menu page and queue the `MainMenu` engine state. -/
def update_game (stepCore : CoreSession → CoreSession) (netSteps : Nat)
    (w : World) : Option World :=
  match w.session with
  | none => none
  | some session =>
    let w := { w with session := none }
    let (session, res) := session.advance stepCore netSteps
    match res with
    | .error SessionError.Disconnected =>
      some { w with
        menu_cameras := w.menu_cameras.map (fun _ => true)
        menu_page := some MenuPage.Home
        next_engine_state := some EngineState.MainMenu
        next_in_game_state := some InGameState.Playing }
    | .ok () => some { w with session := some session }

/-- The gating check of the driver system (`src/session.rs`, lines 50–57):
the session update loop runs only in `InGame`/`Playing` with a `Session`
resource present. -/
def driver_gate (w : World) : Bool :=
  w.engine_state == EngineState.InGame
    && w.in_game_state == InGameState.Playing
    && w.session.isSome

/-- Modelled from the spec: the external framework applies pending
`NextState` transitions between frames. -/
def apply_next_states (w : World) : World :=
  { w with
    engine_state := w.next_engine_state.getD w.engine_state
    in_game_state := w.next_in_game_state.getD w.in_game_state
    next_engine_state := none
    next_in_game_state := none }

/-- Instrumentation: does this `run_criteria` call take the
catch-up-too-slow abort branch (`src/session.rs`, lines 190–194)? -/
def run_criteria_aborts (s : LocalSessionRunner) (delta now1 now2 : ℚ)
    (fps : Nat) : Bool :=
  decide (STEP fps ≤ accEnter s delta)
    && decide (STEP fps < now2 - s.loop_start.getD now1)

/-- One frame of the driver loop of `JumpySessionPlugin::build`
(`src/session.rs`, lines 59–75) for a local session: call `run_criteria`
repeatedly, running the session schedule (whose net effect on the runner's
core is `stepCore`) after each step decision, until a non-step decision or
the fuel is exhausted.  `walls i` supplies the two wall-clock readings of the
`i`-th call of the burst.  Returns the runner, the number of step decisions,
the number of aborts, and whether the burst finished within the fuel. -/
def runFrame (stepCore : CoreSession → CoreSession) (fps : Nat) (delta : ℚ)
    (walls : Nat → ℚ × ℚ) :
    Nat → LocalSessionRunner → LocalSessionRunner × Nat × Nat × Bool
  | 0, s => (s, 0, 0, false)
  | fuel + 1, s =>
    let now := walls 0
    let ab : Nat := if run_criteria_aborts s delta now.1 now.2 fps then 1 else 0
    let r := s.run_criteria delta now.1 now.2 fps
    match r.2 with
    | ShouldRun.Yes => ({ r.1 with core := stepCore r.1.core }, 1, ab, true)
    | ShouldRun.No => (r.1, 0, ab, true)
    | ShouldRun.YesAndCheckAgain =>
      let s' := { r.1 with core := stepCore r.1.core }
      let rest := runFrame stepCore fps delta (fun n => walls (n + 1)) fuel s'
      (rest.1, rest.2.1 + 1, rest.2.2.1 + ab, rest.2.2.2)

/-- A whole run: one `runFrame` burst per real frame, each frame carrying its
own delta and wall-clock oracle.  Accumulates total steps, total aborts, and
whether every burst finished. -/
def runSequence (stepCore : CoreSession → CoreSession) (fps fuel : Nat) :
    List (ℚ × (Nat → ℚ × ℚ)) → LocalSessionRunner →
    LocalSessionRunner × Nat × Nat × Bool
  | [], s => (s, 0, 0, true)
  | f :: rest, s =>
    let r1 := runFrame stepCore fps f.1 f.2 fuel s
    let r2 := runSequence stepCore fps fuel rest r1.1
    (r2.1, r1.2.1 + r2.2.1, r1.2.2.1 + r2.2.2.1, r1.2.2.2 && r2.2.2.2)

/-- Fold an arbitrary sequence of `run_criteria` calls (each a
`(delta, now1, now2)` triple) through the runner's timing state. -/
def runCalls (fps : Nat) :
    List (ℚ × ℚ × ℚ) → LocalSessionRunner → LocalSessionRunner
  | [], s => s
  | c :: rest, s => runCalls fps rest (s.run_criteria c.1 c.2.1 c.2.2 fps).1

/-- A concrete inactive, non-AI player slot, for concrete evaluations. -/
def samplePlayer : PlayerInput :=
  { control := default
    active := false
    selected_player := 7
    is_ai := false
    editor_input := none }

/-- A concrete session configuration with two player slots. -/
def sampleInfo : CoreSessionInfo :=
  { meta := ⟨[3, 4]⟩
    initial_inputs := ⟨[samplePlayer, samplePlayer]⟩
    initial_state := 0 }

/-- A concrete core in its initial state. -/
def sampleCore : CoreSession := CoreSession.new sampleInfo

/-- A concrete freshly-created local runner. -/
def sampleRunner : LocalSessionRunner := LocalSessionRunner.new sampleCore

/-- A concrete connected networked runner playing as network slot 1. -/
def sampleNet : GgrsSessionRunner :=
  { core := sampleCore, local_player_idx := 1, disconnected := false }

/-- A concrete in-game world whose networked session has just lost its
transport connection. -/
def sampleDiscWorld : World :=
  { session := some (Session.networked
      { core := sampleCore, local_player_idx := 1, disconnected := true })
    menu_cameras := [false, false]
    menu_page := none
    engine_state := EngineState.InGame
    in_game_state := InGameState.Playing
    next_engine_state := none
    next_in_game_state := none }

/-! ## Helper lemmas -/

theorem STEP_pos {fps : Nat} (h : 0 < fps) : 0 < STEP fps := by
  have : (0 : ℚ) < (fps : ℚ) := by exact_mod_cast h
  simpa [STEP] using this

theorem STEP_mul_fps {fps : Nat} (h : 0 < fps) : STEP fps * (fps : ℚ) = 1 := by
  have : (fps : ℚ) ≠ 0 := by positivity
  field_simp [STEP]

/-- `run_criteria`, case: accumulator below one step. -/
theorem run_criteria_no_step {s : LocalSessionRunner} {delta now1 now2 : ℚ}
    {fps : Nat} (h : ¬ STEP fps ≤ accEnter s delta) :
    s.run_criteria delta now1 now2 fps
      = ({ s with accumulator := accEnter s delta, loop_start := none },
          ShouldRun.No) := by
  simp [LocalSessionRunner.run_criteria, h]

/-- `run_criteria`, case: catch-up-too-slow abort. -/
theorem run_criteria_abort {s : LocalSessionRunner} {delta now1 now2 : ℚ}
    {fps : Nat} (h1 : STEP fps ≤ accEnter s delta)
    (h2 : STEP fps < now2 - s.loop_start.getD now1) :
    s.run_criteria delta now1 now2 fps
      = ({ s with accumulator := 0, loop_start := none }, ShouldRun.No) := by
  simp [LocalSessionRunner.run_criteria, h1, h2]

/-- `run_criteria`, case: fire one catch-up step. -/
theorem run_criteria_step {s : LocalSessionRunner} {delta now1 now2 : ℚ}
    {fps : Nat} (h1 : STEP fps ≤ accEnter s delta)
    (h2 : ¬ STEP fps < now2 - s.loop_start.getD now1) :
    s.run_criteria delta now1 now2 fps
      = ({ s with
            accumulator := accEnter s delta - STEP fps
            loop_start := some (s.loop_start.getD now1) },
          ShouldRun.YesAndCheckAgain) := by
  simp [LocalSessionRunner.run_criteria, h1, h2]

/-- `run_criteria` never yields `ShouldRun.Yes`. -/
theorem run_criteria_ne_yes (s : LocalSessionRunner) (delta now1 now2 : ℚ)
    (fps : Nat) : (s.run_criteria delta now1 now2 fps).2 ≠ ShouldRun.Yes := by
  by_cases h1 : STEP fps ≤ accEnter s delta
  · by_cases h2 : STEP fps < now2 - s.loop_start.getD now1
    · rw [run_criteria_abort h1 h2]; simp
    · rw [run_criteria_step h1 h2]; simp
  · rw [run_criteria_no_step h1]; simp

theorem modifyIdx_get_ne (f : α → α) :
    ∀ (i j : Nat) (l : List α), i ≠ j →
      (modifyIdx f i l).get? j = l.get? j := by
  intro i j l
  induction l generalizing i j with
  | nil => intro _; simp [modifyIdx]
  | cons a as ih =>
    intro hij
    cases i with
    | zero =>
      cases j with
      | zero => exact absurd rfl hij
      | succ j => simp [modifyIdx]
    | succ i =>
      cases j with
      | zero => simp [modifyIdx]
      | succ j =>
        simp only [modifyIdx, List.get?]
        exact ih i j (by omega)

theorem modifyIdx_get_eq (f : α → α) :
    ∀ (i : Nat) (l : List α),
      (modifyIdx f i l).get? i = (l.get? i).map f := by
  intro i l
  induction l generalizing i with
  | nil => simp [modifyIdx]
  | cons a as ih =>
    cases i with
    | zero => simp [modifyIdx]
    | succ i => simpa [modifyIdx] using ih i

/-- The runner state after a fired catch-up step and one schedule run. -/
def stepState (stepCore : CoreSession → CoreSession) (s : LocalSessionRunner)
    (delta now1 : ℚ) (fps : Nat) : LocalSessionRunner :=
  { core := stepCore s.core
    accumulator := accEnter s delta - STEP fps
    loop_start := some (s.loop_start.getD now1) }

theorem runFrame_succ_no_step (stepCore : CoreSession → CoreSession)
    {fps : Nat} {delta : ℚ} (walls : Nat → ℚ × ℚ) (fuel : Nat)
    {s : LocalSessionRunner} (hgate : ¬ STEP fps ≤ accEnter s delta) :
    runFrame stepCore fps delta walls (fuel + 1) s
      = ({ s with accumulator := accEnter s delta, loop_start := none },
         0, 0, true) := by
  simp only [runFrame, run_criteria_no_step hgate, run_criteria_aborts]
  simp [hgate]

theorem runFrame_succ_abort (stepCore : CoreSession → CoreSession)
    {fps : Nat} {delta : ℚ} {walls : Nat → ℚ × ℚ} (fuel : Nat)
    {s : LocalSessionRunner} (hgate : STEP fps ≤ accEnter s delta)
    (htime : STEP fps < (walls 0).2 - s.loop_start.getD (walls 0).1) :
    runFrame stepCore fps delta walls (fuel + 1) s
      = ({ s with accumulator := 0, loop_start := none }, 0, 1, true) := by
  simp only [runFrame, run_criteria_abort hgate htime, run_criteria_aborts]
  simp [hgate, htime]

theorem runFrame_succ_step (stepCore : CoreSession → CoreSession)
    {fps : Nat} {delta : ℚ} {walls : Nat → ℚ × ℚ} (fuel : Nat)
    {s : LocalSessionRunner} (hgate : STEP fps ≤ accEnter s delta)
    (htime : ¬ STEP fps < (walls 0).2 - s.loop_start.getD (walls 0).1) :
    runFrame stepCore fps delta walls (fuel + 1) s
      = ((runFrame stepCore fps delta (fun n => walls (n + 1)) fuel
            (stepState stepCore s delta (walls 0).1 fps)).1,
         (runFrame stepCore fps delta (fun n => walls (n + 1)) fuel
            (stepState stepCore s delta (walls 0).1 fps)).2.1 + 1,
         (runFrame stepCore fps delta (fun n => walls (n + 1)) fuel
            (stepState stepCore s delta (walls 0).1 fps)).2.2.1,
         (runFrame stepCore fps delta (fun n => walls (n + 1)) fuel
            (stepState stepCore s delta (walls 0).1 fps)).2.2.2) := by
  simp only [runFrame, run_criteria_step hgate htime, run_criteria_aborts]
  simp [hgate, htime, stepState]

theorem stepState_accumulator (stepCore : CoreSession → CoreSession)
    (s : LocalSessionRunner) (delta now1 : ℚ) (fps : Nat) :
    (stepState stepCore s delta now1 fps).accumulator
      = accEnter s delta - STEP fps := rfl

theorem accEnter_stepState (stepCore : CoreSession → CoreSession)
    (s : LocalSessionRunner) (delta now1 delta' : ℚ) (fps : Nat) :
    accEnter (stepState stepCore s delta now1 fps) delta'
      = accEnter s delta - STEP fps := by
  simp [accEnter, stepState]

theorem accEnter_nonneg {s : LocalSessionRunner} {delta : ℚ}
    (hacc : 0 ≤ s.accumulator) (hdelta : 0 ≤ delta) :
    0 ≤ accEnter s delta := by
  unfold accEnter
  by_cases h : s.loop_start.isNone
  · simp [h]
    linarith
  · simp [h]
    exact hacc

theorem accEnter_le {s : LocalSessionRunner} {delta : ℚ}
    (hdelta : 0 ≤ delta) : accEnter s delta ≤ s.accumulator + delta := by
  unfold accEnter
  by_cases h : s.loop_start.isNone
  · simp [h]
  · simp [h]
    linarith

theorem accEnter_of_none {s : LocalSessionRunner} {delta : ℚ}
    (h : s.loop_start = none) : accEnter s delta = s.accumulator + delta := by
  simp [accEnter, h]

/-- Accounting invariant for one burst of the driver loop: the final
accumulator is non-negative; the steps fired, paid at `STEP` each, plus the
remaining accumulator never exceed the time available on entry — with
equality when the burst finished without an abort — and a finished burst
leaves no loop-start timestamp and less than one `STEP` of debt. -/
theorem runFrame_inv (stepCore : CoreSession → CoreSession) {fps : Nat}
    (hfps : 0 < fps) :
    ∀ (fuel : Nat) (s : LocalSessionRunner) (delta : ℚ) (walls : Nat → ℚ × ℚ),
      0 ≤ s.accumulator → 0 ≤ delta →
      (0 ≤ (runFrame stepCore fps delta walls fuel s).1.accumulator
        ∧ ((runFrame stepCore fps delta walls fuel s).2.1 : ℚ) * STEP fps
            + (runFrame stepCore fps delta walls fuel s).1.accumulator
          ≤ accEnter s delta)
      ∧ ((runFrame stepCore fps delta walls fuel s).2.2.1 = 0 →
          (runFrame stepCore fps delta walls fuel s).2.2.2 = true →
          ((runFrame stepCore fps delta walls fuel s).2.1 : ℚ) * STEP fps
              + (runFrame stepCore fps delta walls fuel s).1.accumulator
            = accEnter s delta)
      ∧ ((runFrame stepCore fps delta walls fuel s).2.2.2 = true →
          (runFrame stepCore fps delta walls fuel s).1.loop_start = none
            ∧ (runFrame stepCore fps delta walls fuel s).1.accumulator
                < STEP fps) := by
  intro fuel
  induction fuel with
  | zero =>
    intro s delta walls hacc hdelta
    refine ⟨⟨?_, ?_⟩, ?_, ?_⟩
    · simpa [runFrame] using hacc
    · simp only [runFrame, Nat.cast_zero, zero_mul, zero_add]
      unfold accEnter
      by_cases h : s.loop_start.isNone
      · simp [h]
        linarith
      · simp [h]
    · simp [runFrame]
    · simp [runFrame]
  | succ fuel ih =>
    intro s delta walls hacc hdelta
    have haccE : 0 ≤ accEnter s delta := by
      unfold accEnter
      by_cases h : s.loop_start.isNone <;> simp [h] <;> linarith
    by_cases hgate : STEP fps ≤ accEnter s delta
    · by_cases htime : STEP fps < (walls 0).2 - s.loop_start.getD (walls 0).1
      · -- catch-up-too-slow abort
        have hrf : runFrame stepCore fps delta walls (fuel + 1) s
            = ({ s with accumulator := 0, loop_start := none }, 0, 1, true) := by
          simp only [runFrame, run_criteria_abort hgate htime,
            run_criteria_aborts]
          simp [hgate, htime]
        rw [hrf]
        refine ⟨⟨le_refl 0, ?_⟩, ?_, ?_⟩
        · simpa using haccE
        · simp
        · intro _
          exact ⟨rfl, STEP_pos hfps⟩
      · -- fire one step and recurse
        have hrf : runFrame stepCore fps delta walls (fuel + 1) s
            = ((runFrame stepCore fps delta (fun n => walls (n + 1)) fuel
                  { core := stepCore s.core
                    accumulator := accEnter s delta - STEP fps
                    loop_start := some (s.loop_start.getD (walls 0).1) }).1,
               (runFrame stepCore fps delta (fun n => walls (n + 1)) fuel
                  { core := stepCore s.core
                    accumulator := accEnter s delta - STEP fps
                    loop_start := some (s.loop_start.getD (walls 0).1) }).2.1
                 + 1,
               (runFrame stepCore fps delta (fun n => walls (n + 1)) fuel
                  { core := stepCore s.core
                    accumulator := accEnter s delta - STEP fps
                    loop_start := some (s.loop_start.getD (walls 0).1) }).2.2.1,
               (runFrame stepCore fps delta (fun n => walls (n + 1)) fuel
                  { core := stepCore s.core
                    accumulator := accEnter s delta - STEP fps
                    loop_start := some (s.loop_start.getD (walls 0).1) }).2.2.2) := by
          simp only [runFrame, run_criteria_step hgate htime,
            run_criteria_aborts]
          simp [hgate, htime]
        have hacc2 : (0 : ℚ) ≤ accEnter s delta - STEP fps := by linarith
        obtain ⟨⟨ih1, ih2⟩, ih3, ih4⟩ :=
          ih { core := stepCore s.core
               accumulator := accEnter s delta - STEP fps
               loop_start := some (s.loop_start.getD (walls 0).1) }
            delta (fun n => walls (n + 1)) hacc2 hdelta
        have haccE2 : accEnter
            { core := stepCore s.core
              accumulator := accEnter s delta - STEP fps
              loop_start := some (s.loop_start.getD (walls 0).1) } delta
            = accEnter s delta - STEP fps := by
          simp [accEnter]
        rw [haccE2] at ih2 ih3
        rw [hrf]
        refine ⟨⟨ih1, ?_⟩, ?_, ?_⟩
        · push_cast
          linarith
        · intro ha hfin
          have := ih3 ha hfin
          push_cast
          linarith
        · intro hfin
          exact ih4 hfin
    · -- below one step: no-step decision
      have hrf : runFrame stepCore fps delta walls (fuel + 1) s
          = ({ s with accumulator := accEnter s delta, loop_start := none },
             0, 0, true) := by
        simp only [runFrame, run_criteria_no_step hgate, run_criteria_aborts]
        simp [hgate]
      rw [hrf]
      refine ⟨⟨haccE, ?_⟩, ?_, ?_⟩
      · simp
      · intro _ _
        simp
      · intro _
        exact ⟨rfl, not_le.mp hgate⟩

/-- With more fuel than `accEnter / STEP` calls, a burst always reaches a
non-step decision: the catch-up loop is bounded. -/
theorem runFrame_fin (stepCore : CoreSession → CoreSession) {fps : Nat}
    (hfps : 0 < fps) :
    ∀ (fuel : Nat) (s : LocalSessionRunner) (delta : ℚ) (walls : Nat → ℚ × ℚ),
      0 ≤ s.accumulator → 0 ≤ delta →
      accEnter s delta * (fps : ℚ) < (fuel : ℚ) →
      (runFrame stepCore fps delta walls fuel s).2.2.2 = true := by
  intro fuel
  induction fuel with
  | zero =>
    intro s delta walls hacc hdelta hlt
    exfalso
    have h0 : 0 ≤ accEnter s delta := accEnter_nonneg hacc hdelta
    have h1 : (0 : ℚ) ≤ (fps : ℚ) := by positivity
    have h2 := mul_nonneg h0 h1
    simp only [Nat.cast_zero] at hlt
    linarith
  | succ fuel ih =>
    intro s delta walls hacc hdelta hlt
    by_cases hgate : STEP fps ≤ accEnter s delta
    · by_cases htime : STEP fps < (walls 0).2 - s.loop_start.getD (walls 0).1
      · rw [runFrame_succ_abort stepCore fuel hgate htime]
      · rw [runFrame_succ_step stepCore fuel hgate htime]
        apply ih
        · rw [stepState_accumulator]
          linarith
        · exact hdelta
        · rw [accEnter_stepState, sub_mul, STEP_mul_fps hfps]
          push_cast at hlt ⊢
          linarith
    · rw [runFrame_succ_no_step stepCore walls fuel hgate]

/-- Accounting invariant for a whole run, frame by frame. -/
theorem runSequence_inv (stepCore : CoreSession → CoreSession) {fps : Nat}
    (hfps : 0 < fps) (fuel : Nat) :
    ∀ (frames : List (ℚ × (Nat → ℚ × ℚ))) (s : LocalSessionRunner),
      0 ≤ s.accumulator → (∀ f ∈ frames, 0 ≤ f.1) →
      (0 ≤ (runSequence stepCore fps fuel frames s).1.accumulator
        ∧ ((runSequence stepCore fps fuel frames s).2.1 : ℚ) * STEP fps
            + (runSequence stepCore fps fuel frames s).1.accumulator
          ≤ s.accumulator + (frames.map Prod.fst).sum)
      ∧ (s.loop_start = none →
          (runSequence stepCore fps fuel frames s).2.2.1 = 0 →
          (runSequence stepCore fps fuel frames s).2.2.2 = true →
          ((runSequence stepCore fps fuel frames s).2.1 : ℚ) * STEP fps
              + (runSequence stepCore fps fuel frames s).1.accumulator
            = s.accumulator + (frames.map Prod.fst).sum)
      ∧ ((runSequence stepCore fps fuel frames s).2.2.2 = true →
          s.loop_start = none → s.accumulator < STEP fps →
          (runSequence stepCore fps fuel frames s).1.loop_start = none
            ∧ (runSequence stepCore fps fuel frames s).1.accumulator
                < STEP fps) := by
  intro frames
  induction frames with
  | nil =>
    intro s hacc _
    refine ⟨⟨?_, ?_⟩, ?_, ?_⟩
    · simpa [runSequence] using hacc
    · simp [runSequence]
    · intro _ _ _
      simp [runSequence]
    · intro _ hnone hlt
      simpa [runSequence] using ⟨hnone, hlt⟩
  | cons f rest ih =>
    intro s hacc hdeltas
    have hdf : 0 ≤ f.1 := hdeltas f (List.mem_cons_self f rest)
    have hdrest : ∀ g ∈ rest, 0 ≤ g.1 := fun g hg =>
      hdeltas g (List.mem_cons_of_mem f hg)
    obtain ⟨⟨f1, f2⟩, f3, f4⟩ :=
      runFrame_inv stepCore hfps fuel s f.1 f.2 hacc hdf
    obtain ⟨⟨i1, i2⟩, i3, i4⟩ :=
      ih (runFrame stepCore fps f.1 f.2 fuel s).1 f1 hdrest
    simp only [runSequence, List.map_cons, List.sum_cons]
    refine ⟨⟨i1, ?_⟩, ?_, ?_⟩
    · have hle : accEnter s f.1 ≤ s.accumulator + f.1 := accEnter_le hdf
      push_cast
      linarith
    · intro hnone ha hfin
      rw [Nat.add_eq_zero] at ha
      rw [Bool.and_eq_true] at hfin
      have hf3 := f3 ha.1 hfin.1
      rw [accEnter_of_none hnone] at hf3
      obtain ⟨hn1, _⟩ := f4 hfin.1
      have hi3 := i3 hn1 ha.2 hfin.2
      push_cast
      linarith
    · intro hfin _ _
      rw [Bool.and_eq_true] at hfin
      obtain ⟨hn1, hl1⟩ := f4 hfin.1
      exact i4 hfin.2 hn1 hl1

theorem modifyIdx_length (f : α → α) :
    ∀ (i : Nat) (l : List α), (modifyIdx f i l).length = l.length := by
  intro i l
  induction l generalizing i with
  | nil => simp [modifyIdx]
  | cons a as ih =>
    cases i with
    | zero => simp [modifyIdx]
    | succ i => simpa [modifyIdx] using ih i

/-- Non-negativity of the accumulator is preserved by every single
`run_criteria` call with a non-negative frame delta. -/
theorem run_criteria_acc_nonneg {s : LocalSessionRunner}
    {delta now1 now2 : ℚ} {fps : Nat} (hacc : 0 ≤ s.accumulator)
    (hdelta : 0 ≤ delta) :
    0 ≤ (s.run_criteria delta now1 now2 fps).1.accumulator := by
  have haccE := accEnter_nonneg hacc hdelta
  by_cases h1 : STEP fps ≤ accEnter s delta
  · by_cases h2 : STEP fps < now2 - s.loop_start.getD now1
    · rw [run_criteria_abort h1 h2]
    · rw [run_criteria_step h1 h2]
      simp only
      linarith
  · rw [run_criteria_no_step h1]
    exact haccE

theorem runCalls_nonneg (fps : Nat) :
    ∀ (calls : List (ℚ × ℚ × ℚ)) (s : LocalSessionRunner),
      0 ≤ s.accumulator → (∀ c ∈ calls, 0 ≤ c.1) →
      0 ≤ (runCalls fps calls s).accumulator := by
  intro calls
  induction calls with
  | nil =>
    intro s hacc _
    simpa [runCalls] using hacc
  | cons c rest ih =>
    intro s hacc hdeltas
    have hc : 0 ≤ c.1 := hdeltas c (List.mem_cons_self c rest)
    simp only [runCalls]
    exact ih _ (run_criteria_acc_nonneg hacc hc)
      (fun d hd => hdeltas d (List.mem_cons_of_mem c hd))

theorem modifyIdx_getD_eq (f : α → α) :
    ∀ (i : Nat) (l : List α) (d : α), i < l.length →
      (modifyIdx f i l).getD i d = f (l.getD i d) := by
  intro i l
  induction l generalizing i with
  | nil =>
    intro d h
    simp at h
  | cons a as ih =>
    intro d h
    cases i with
    | zero => simp [modifyIdx]
    | succ i =>
      simp only [modifyIdx, List.getD_cons_succ]
      exact ih i d (by simpa using h)

theorem modifyIdx_getD_ne (f : α → α) :
    ∀ (i j : Nat) (l : List α) (d : α), i ≠ j →
      (modifyIdx f i l).getD j d = l.getD j d := by
  intro i j l
  induction l generalizing i j with
  | nil =>
    intro d _
    simp [modifyIdx]
  | cons a as ih =>
    intro d hij
    cases i with
    | zero =>
      cases j with
      | zero => exact absurd rfl hij
      | succ j => simp [modifyIdx]
    | succ i =>
      cases j with
      | zero => simp [modifyIdx]
      | succ j =>
        simp only [modifyIdx, List.getD_cons_succ]
        exact ih i j d (by omega)

/-- The editor-input merge touches only the `editor_input` field: `is_ai` and
`control` of every slot read through `getD` are unchanged. -/
theorem editor_merge_preserves (e : Option EditorInput)
    (l : List PlayerInput) (idx : Nat) :
    (((modifyIdx (fun p => { p with editor_input := e }) 0 l).getD idx
        default).is_ai = ((l.getD idx default)).is_ai)
    ∧ (((modifyIdx (fun p => { p with editor_input := e }) 0 l).getD idx
        default).control = ((l.getD idx default)).control) := by
  cases l with
  | nil => simp [modifyIdx]
  | cons a as =>
    cases idx with
    | zero => simp [modifyIdx]
    | succ idx => simp [modifyIdx]

theorem with_core_core_session (s : Session) (c : CoreSession) :
    (s.with_core c).core_session = c := by
  cases s <;> rfl

theorem core_session_networked (r : GgrsSessionRunner) :
    (Session.networked r).core_session = r.core := rfl

theorem core_session_loc (r : LocalSessionRunner) :
    (Session.loc r).core_session = r.core := rfl

theorem set_player_input_players (s : Session) (i : Nat) (ctl : PlayerControl) :
    (s.set_player_input i ctl).core_session.player_inputs.players
      = modifyIdx (fun p => { p with control := ctl }) i
          s.core_session.player_inputs.players := by
  rw [Session.set_player_input, with_core_core_session]
  rfl

/-- `collect_step` in a network game writes (if anything) only to the network
player's slot. -/
theorem collect_step_some_get_ne (k j : Nat) (hjk : j ≠ k) (s : Session)
    (c : Nat × ActionState) :
    (collect_step (some k) s c).core_session.player_inputs.players.get? j
      = s.core_session.player_inputs.players.get? j := by
  simp only [collect_step]
  split
  · rfl
  · rw [set_player_input_players]
    simp only [Option.getD_some]
    exact modifyIdx_get_ne _ _ _ _ (Ne.symm hjk)

theorem collect_fold_some_get_ne (k j : Nat) (hjk : j ≠ k) :
    ∀ (cs : List (Nat × ActionState)) (s : Session),
      (List.foldl (collect_step (some k)) s cs).core_session.player_inputs.players.get? j
        = s.core_session.player_inputs.players.get? j := by
  intro cs
  induction cs with
  | nil =>
    intro s
    rfl
  | cons c rest ih =>
    intro s
    rw [List.foldl_cons, ih, collect_step_some_get_ne k j hjk]

/-! ## Claims -/

/-- C3: in `collect_local_input` under a runner reporting
`network_player_idx() = Some(k)`: no input-table slot other than `k` is ever
written; a slot-0 collector for a non-AI slot writes the recomputed record to
slot `k`; an AI slot-0 collector is skipped; any collector for a UI slot
other than 0 is skipped. -/
theorem c3_network_slot_remap (r : GgrsSessionRunner)
    (collectors : List (Nat × ActionState)) (editor : Option EditorInput)
    (a : ActionState) (j : Nat) (hjk : j ≠ r.local_player_idx) :
    ((collect_local_input collectors editor
          (Session.networked r)).1.core_session.player_inputs.players.get? j
        = r.core.player_inputs.players.get? j
      ∧ (collect_local_input collectors editor (Session.networked r)).2
        = editor)
    ∧ ((r.core.player_inputs.players.getD 0 default).is_ai = false →
        (collect_local_input [(0, a)] editor (Session.networked r)).1
            = (Session.networked r).set_player_input r.local_player_idx
                (update_control ((Session.networked r).get_player_input 0) a)
          ∧ (collect_local_input [(0, a)] editor (Session.networked
              r)).1.core_session.player_inputs.players.get? r.local_player_idx
            = (r.core.player_inputs.players.get? r.local_player_idx).map
                (fun p => { p with control := update_control ((Session.networked r).get_player_input 0) a }))
    ∧ ((r.core.player_inputs.players.getD 0 default).is_ai = true →
        (collect_local_input [(0, a)] editor (Session.networked r)).1
          = Session.networked r)
    ∧ (j ≠ 0 →
        (collect_local_input [(j, a)] editor (Session.networked r)).1
          = Session.networked r) := by
  refine ⟨⟨?_, ?_⟩, ?_, ?_, ?_⟩
  · simp only [collect_local_input, Session.network_player_idx]
    exact collect_fold_some_get_ne r.local_player_idx j hjk collectors
      (Session.networked r)
  · rfl
  · intro hai
    constructor
    · simp only [collect_local_input, Session.network_player_idx,
        List.foldl_cons, List.foldl_nil, collect_step, core_session_networked]
      rw [hai]
      rw [if_neg (by simp)]
      rfl
    · simp only [collect_local_input, Session.network_player_idx,
        List.foldl_cons, List.foldl_nil, collect_step, core_session_networked]
      rw [hai]
      rw [if_neg (by simp)]
      simp only [Option.getD_some]
      rw [set_player_input_players]
      simp only [core_session_networked]
      exact modifyIdx_get_eq _ _ _
  · intro hai
    simp only [collect_local_input, Session.network_player_idx,
      List.foldl_cons, List.foldl_nil, collect_step, core_session_networked]
    rw [hai]
    rw [if_pos (by simp)]
  · intro hj
    simp only [collect_local_input, Session.network_player_idx,
      List.foldl_cons, List.foldl_nil, collect_step, core_session_networked]
    rw [if_pos (by simp [hj])]

/-- Witness for C3 at a concrete input: network slot `k = 1`, checking that
slot 0 of the input table is untouched. -/
theorem c3_network_slot_remap_witness :
    ((collect_local_input [] none
        (Session.networked sampleNet)).1.core_session.player_inputs.players.get? 0
      = sampleNet.core.player_inputs.players.get? 0)
    ∧ (0 : Nat) ≠ sampleNet.local_player_idx :=
  ⟨(c3_network_slot_remap sampleNet [] none default 0 (by decide)).1.1,
    by decide⟩

/-- C4: the edge-triggered fields are recomputed on every collection as
`pressed && !was_pressed` against the previous-frame record, so they are true
exactly on the not-pressed-to-pressed transition frame and false on later
frames while the button stays held; and the record a collected slot stores is
exactly `update_control` of the record previously fetched via
`get_player_input`. -/
theorem c4_edge_trigger (c : PlayerControl) (a a' : ActionState)
    (r : LocalSessionRunner) (idx : Nat) (editor : Option EditorInput) :
    ((update_control c a).jump_just_pressed
        = (a.jump_pressed && !c.jump_pressed)
      ∧ (update_control c a).grab_just_pressed
        = (a.grab_pressed && !c.grab_pressed)
      ∧ (update_control c a).shoot_just_pressed
        = (a.shoot_pressed && !c.shoot_pressed))
    ∧ ((update_control (update_control c a) a').jump_just_pressed
        = (a'.jump_pressed && !a.jump_pressed)
      ∧ (update_control (update_control c a) a').grab_just_pressed
        = (a'.grab_pressed && !a.grab_pressed)
      ∧ (update_control (update_control c a) a').shoot_just_pressed
        = (a'.shoot_pressed && !a.shoot_pressed))
    ∧ ((r.core.player_inputs.players.getD idx default).is_ai = false →
        idx < r.core.player_inputs.players.length →
        (collect_local_input [(idx, a)] editor
            (Session.loc r)).1.get_player_input idx
          = update_control ((Session.loc r).get_player_input idx) a) := by
  refine ⟨⟨rfl, rfl, rfl⟩, ⟨rfl, rfl, rfl⟩, ?_⟩
  intro hai hlen
  have hpres := editor_merge_preserves editor r.core.player_inputs.players idx
  simp only [collect_local_input, Session.network_player_idx,
    LocalSessionRunner.network_player_idx, List.foldl_cons, List.foldl_nil]
  simp only [collect_step, Session.core_session, hpres.1, hai]
  rw [if_neg (by simp)]
  simp only [Option.getD_none]
  have hinner : ∀ rr : LocalSessionRunner, (Session.loc rr).get_player_input idx
      = rr.core.get_control idx := fun _ => rfl
  rw [hinner, hinner]
  simp only [CoreSession.get_control, hpres.2]
  simp only [Session.get_player_input, CoreSession.get_control]
  rw [set_player_input_players]
  simp only [Session.core_session]
  rw [modifyIdx_getD_eq _ _ _ _ (by rw [modifyIdx_length]; exact hlen)]

/-- C7: if every player slot is inactive, `ensure_2_players` activates slots
0 and 1, taking their selected player from the core metadata, and leaves
every slot of index ≥ 2 unchanged; if at least one slot is active, nothing
is modified. -/
theorem c7_two_player_floor (core_meta : CoreMeta) (pi : PlayerInputs) :
    (pi.players.all (fun x => !x.active) = true →
      ((ensure_2_players core_meta pi).players.get? 0
          = (pi.players.get? 0).map (fun p => { p with
              active := true
              selected_player := core_meta.players.getD 0 default }))
      ∧ ((ensure_2_players core_meta pi).players.get? 1
          = (pi.players.get? 1).map (fun p => { p with
              active := true
              selected_player := core_meta.players.getD 1 default }))
      ∧ ∀ i, 2 ≤ i →
          (ensure_2_players core_meta pi).players.get? i = pi.players.get? i)
    ∧ (pi.players.all (fun x => !x.active) = false →
        ensure_2_players core_meta pi = pi) := by
  constructor
  · intro h
    have hrange : List.range 2 = [0, 1] := rfl
    have hply : (ensure_2_players core_meta pi).players
        = modifyIdx (fun p => { p with
            active := true
            selected_player := core_meta.players.getD 1 default }) 1
          (modifyIdx (fun p => { p with
            active := true
            selected_player := core_meta.players.getD 0 default }) 0
            pi.players) := by
      rw [ensure_2_players, if_pos h, hrange]
      rfl
    refine ⟨?_, ?_, ?_⟩
    · rw [hply, modifyIdx_get_ne _ _ _ _ (by omega), modifyIdx_get_eq]
    · rw [hply, modifyIdx_get_eq, modifyIdx_get_ne _ _ _ _ (by omega)]
    · intro i hi
      rw [hply, modifyIdx_get_ne _ _ _ _ (by omega),
        modifyIdx_get_ne _ _ _ _ (by omega)]
  · intro h
    rw [ensure_2_players, if_neg (by simp [h])]

/-- Witness for C7 at a concrete input: two inactive slots. -/
theorem c7_two_player_floor_witness :
    sampleInfo.initial_inputs.players.all (fun x => !x.active) = true
    ∧ (ensure_2_players ⟨[3, 4]⟩ sampleInfo.initial_inputs).players.get? 0
        = (sampleInfo.initial_inputs.players.get? 0).map (fun p => { p with
            active := true
            selected_player := (([3, 4] : List PlayerMeta)).getD 0 default }) :=
  ⟨by decide,
    ((c7_two_player_floor ⟨[3, 4]⟩ sampleInfo.initial_inputs).1 (by decide)).1⟩

/-- C5: in `LocalSessionRunner::run_criteria`, when the accumulator holds at
least one `STEP` and the wall-clock time elapsed since the recorded
loop-start timestamp exceeds one `STEP`, the call zeroes the accumulator,
clears the loop-start timestamp and returns the do-not-step decision; the
return type offers no error channel, so the condition is never surfaced as
an error. -/
theorem c5_catchup_abort (s : LocalSessionRunner) (delta now1 now2 : ℚ)
    (fps : Nat) (hgate : STEP fps ≤ accEnter s delta)
    (htime : STEP fps < now2 - s.loop_start.getD now1) :
    (s.run_criteria delta now1 now2 fps).1.accumulator = 0
    ∧ (s.run_criteria delta now1 now2 fps).1.loop_start = none
    ∧ (s.run_criteria delta now1 now2 fps).2 = ShouldRun.No := by
  rw [run_criteria_abort hgate htime]
  exact ⟨rfl, rfl, rfl⟩

/-- Witness for C5 at a concrete input: one second of debt at 60 FPS with a
wall-clock overrun. -/
theorem c5_catchup_abort_witness :
    (STEP 60 ≤ accEnter { sampleRunner with accumulator := 1 } 0
      ∧ STEP 60 < 1 - ({ sampleRunner with accumulator := 1 }
          : LocalSessionRunner).loop_start.getD 0)
    ∧ (({ sampleRunner with accumulator := 1 }
          : LocalSessionRunner).run_criteria 0 0 1 60).1.accumulator = 0
    ∧ (({ sampleRunner with accumulator := 1 }
          : LocalSessionRunner).run_criteria 0 0 1 60).1.loop_start = none
    ∧ (({ sampleRunner with accumulator := 1 }
          : LocalSessionRunner).run_criteria 0 0 1 60).2 = ShouldRun.No :=
  ⟨⟨by norm_num [STEP, accEnter, sampleRunner, LocalSessionRunner.new],
    by norm_num [STEP, sampleRunner, LocalSessionRunner.new]⟩,
    c5_catchup_abort { sampleRunner with accumulator := 1 } 0 0 1 60
      (by norm_num [STEP, accEnter, sampleRunner, LocalSessionRunner.new])
      (by norm_num [STEP, sampleRunner, LocalSessionRunner.new])⟩

/-- C8: the local runner's `advance` returns `Ok(())` on every input — the
`Local` variant never produces a `SessionError` — and its
`network_player_idx()` is always `None`. -/
theorem c8_local_advance_ok (stepCore : CoreSession → CoreSession)
    (netSteps : Nat) (s : LocalSessionRunner) :
    (LocalSessionRunner.advance stepCore s).2 = Except.ok ()
    ∧ s.network_player_idx = none
    ∧ (Session.advance stepCore netSteps (Session.loc s)).2 = Except.ok ()
    ∧ (Session.loc s).network_player_idx = none :=
  ⟨rfl, rfl, rfl, rfl⟩

/-- C10: `LocalSessionRunner::restart` only restarts the owned core: the
accumulator and the loop-start timestamp are untouched, so `run_criteria`
takes exactly the same decision after a restart as before it. -/
theorem c10_restart_preserves_timing (s : LocalSessionRunner) :
    s.restart.accumulator = s.accumulator
    ∧ s.restart.loop_start = s.loop_start
    ∧ s.restart.core = s.core.restart
    ∧ ∀ (delta now1 now2 : ℚ) (fps : Nat),
        (s.restart.run_criteria delta now1 now2 fps).2
          = (s.run_criteria delta now1 now2 fps).2
        ∧ (s.restart.run_criteria delta now1 now2 fps).1.accumulator
          = (s.run_criteria delta now1 now2 fps).1.accumulator := by
  refine ⟨rfl, rfl, rfl, ?_⟩
  intro delta now1 now2 fps
  have hE : accEnter s.restart delta = accEnter s delta := rfl
  by_cases h1 : STEP fps ≤ accEnter s delta
  · by_cases h2 : STEP fps < now2 - s.loop_start.getD now1
    · rw [run_criteria_abort h1 h2,
        run_criteria_abort (s := s.restart) (hE ▸ h1) h2]
      exact ⟨rfl, rfl⟩
    · rw [run_criteria_step h1 h2,
        run_criteria_step (s := s.restart) (hE ▸ h1) h2]
      exact ⟨rfl, rfl⟩
  · rw [run_criteria_no_step h1, run_criteria_no_step (s := s.restart) (hE ▸ h1)]
    exact ⟨rfl, rfl⟩

/-- C9: `run_criteria` never returns `ShouldRun::Yes` — its result is always
`No` or `YesAndCheckAgain` — so the driver loop's step-once-and-stop branch
is never taken for a local session, and with enough fuel every burst of the
driver loop ends with a do-not-step decision. -/
theorem c9_no_yes_decision (fps : Nat) (s : LocalSessionRunner)
    (delta now1 now2 : ℚ) :
    (s.run_criteria delta now1 now2 fps).2 ≠ ShouldRun.Yes
    ∧ ((s.run_criteria delta now1 now2 fps).2 = ShouldRun.No
        ∨ (s.run_criteria delta now1 now2 fps).2 = ShouldRun.YesAndCheckAgain)
    ∧ (0 < fps → 0 ≤ s.accumulator → 0 ≤ delta →
        ∀ (stepCore : CoreSession → CoreSession) (walls : Nat → ℚ × ℚ),
          ∃ fuel, (runFrame stepCore fps delta walls fuel s).2.2.2 = true) := by
  have hne := run_criteria_ne_yes s delta now1 now2 fps
  refine ⟨hne, ?_, ?_⟩
  · cases h : (s.run_criteria delta now1 now2 fps).2
    · exact absurd h hne
    · exact Or.inl rfl
    · exact Or.inr rfl
  · intro hfps hacc hdelta stepCore walls
    refine ⟨(⌈accEnter s delta * (fps : ℚ)⌉).toNat + 1, ?_⟩
    apply runFrame_fin stepCore hfps _ s delta walls hacc hdelta
    have h1 := Int.le_ceil (accEnter s delta * (fps : ℚ))
    have h2 : ((⌈accEnter s delta * (fps : ℚ)⌉ : ℤ) : ℚ)
        ≤ ((⌈accEnter s delta * (fps : ℚ)⌉.toNat : ℕ) : ℚ) := by
      exact_mod_cast Int.self_le_toNat _
    push_cast
    linarith

/-- Witness for C9 at a concrete input. -/
theorem c9_no_yes_decision_witness :
    ((sampleRunner.run_criteria 1 0 0 60).2 ≠ ShouldRun.Yes)
    ∧ ∃ fuel, (runFrame id 60 1 (fun _ => (0, 0)) fuel sampleRunner).2.2.2
        = true :=
  ⟨(c9_no_yes_decision 60 sampleRunner 1 0 0).1,
    (c9_no_yes_decision 60 sampleRunner 1 0 0).2.2 (by norm_num)
      (by norm_num [sampleRunner, LocalSessionRunner.new]) (by norm_num)
      id (fun _ => (0, 0))⟩

/-- C6: starting from the zero accumulator of a fresh runner, any sequence
of `run_criteria` calls with non-negative frame deltas keeps the accumulator
non-negative after every call; moreover a call subtracts exactly one `STEP`
precisely when it emits the step decision, which happens only under the
`accumulator ≥ STEP` gate, and a non-step call never subtracts (it either
keeps the entered accumulator or resets it to zero). -/
theorem c6_accumulator_nonneg (fps : Nat) (core : CoreSession)
    (calls : List (ℚ × ℚ × ℚ)) (hdeltas : ∀ c ∈ calls, 0 ≤ c.1) :
    (∀ pre post, calls = pre ++ post →
       0 ≤ (runCalls fps pre (LocalSessionRunner.new core)).accumulator)
    ∧ ∀ (s : LocalSessionRunner) (delta now1 now2 : ℚ),
        ((s.run_criteria delta now1 now2 fps).2 = ShouldRun.YesAndCheckAgain ↔
          STEP fps ≤ accEnter s delta
            ∧ ¬ STEP fps < now2 - s.loop_start.getD now1)
        ∧ ((s.run_criteria delta now1 now2 fps).2 = ShouldRun.YesAndCheckAgain →
            (s.run_criteria delta now1 now2 fps).1.accumulator
              = accEnter s delta - STEP fps)
        ∧ ((s.run_criteria delta now1 now2 fps).2 ≠ ShouldRun.YesAndCheckAgain →
            (s.run_criteria delta now1 now2 fps).1.accumulator
                = accEnter s delta
              ∨ (s.run_criteria delta now1 now2 fps).1.accumulator = 0) := by
  constructor
  · intro pre post heq
    apply runCalls_nonneg
    · norm_num [LocalSessionRunner.new]
    · intro c hc
      exact hdeltas c (heq ▸ List.mem_append_left post hc)
  · intro s delta now1 now2
    by_cases h1 : STEP fps ≤ accEnter s delta
    · by_cases h2 : STEP fps < now2 - s.loop_start.getD now1
      · rw [run_criteria_abort h1 h2]
        refine ⟨?_, ?_, ?_⟩
        · simp [h2]
        · intro h
          simp at h
        · intro _
          exact Or.inr rfl
      · rw [run_criteria_step h1 h2]
        refine ⟨?_, ?_, ?_⟩
        · simp [h1, h2]
        · intro _
          rfl
        · intro h
          exact absurd rfl h
    · rw [run_criteria_no_step h1]
      refine ⟨?_, ?_, ?_⟩
      · simp [h1]
      · intro h
        simp at h
      · intro _
        exact Or.inl rfl

/-- Witness for C6 at a concrete input. -/
theorem c6_accumulator_nonneg_witness :
    (∀ c ∈ ([((1 : ℚ) / 30, (0 : ℚ), (0 : ℚ))] : List (ℚ × ℚ × ℚ)), 0 ≤ c.1)
    ∧ 0 ≤ (runCalls 60 [((1 : ℚ) / 30, (0 : ℚ), (0 : ℚ))]
        (LocalSessionRunner.new sampleCore)).accumulator := by
  have hd : ∀ c ∈ ([((1 : ℚ) / 30, (0 : ℚ), (0 : ℚ))] : List (ℚ × ℚ × ℚ)),
      0 ≤ c.1 := by
    intro c hc
    rw [List.mem_singleton] at hc
    subst hc
    norm_num
  exact ⟨hd, (c6_accumulator_nonneg 60 sampleCore
    [((1 : ℚ) / 30, (0 : ℚ), (0 : ℚ))] hd).1
    [((1 : ℚ) / 30, (0 : ℚ), (0 : ℚ))] [] (by simp)⟩

/-- C1: over any run of frames with non-negative deltas summing to `T`, each
driven through `run_criteria` until a non-step decision, the total number of
step decisions is at most `⌊T / STEP⌋`, with equality whenever no
catch-up-too-slow abort occurred. -/
theorem c1_fixed_step_fidelity (stepCore : CoreSession → CoreSession)
    (fps fuel : Nat) (core : CoreSession)
    (frames : List (ℚ × (Nat → ℚ × ℚ))) (hfps : 0 < fps)
    (hdeltas : ∀ f ∈ frames, 0 ≤ f.1)
    (hfin : (runSequence stepCore fps fuel frames
        (LocalSessionRunner.new core)).2.2.2 = true) :
    ((runSequence stepCore fps fuel frames
        (LocalSessionRunner.new core)).2.1 : ℤ)
      ≤ ⌊(frames.map Prod.fst).sum / STEP fps⌋
    ∧ ((runSequence stepCore fps fuel frames
          (LocalSessionRunner.new core)).2.2.1 = 0 →
        ((runSequence stepCore fps fuel frames
            (LocalSessionRunner.new core)).2.1 : ℤ)
          = ⌊(frames.map Prod.fst).sum / STEP fps⌋) := by
  have hfpsQ : (0 : ℚ) < (fps : ℚ) := by exact_mod_cast hfps
  have hdiv : (frames.map Prod.fst).sum / STEP fps
      = (frames.map Prod.fst).sum * (fps : ℚ) := by
    rw [STEP, one_div, div_inv_eq_mul]
  obtain ⟨⟨g1, g2⟩, g3, g4⟩ :=
    runSequence_inv stepCore hfps fuel frames (LocalSessionRunner.new core)
      (by norm_num [LocalSessionRunner.new]) hdeltas
  have hnew0 : (LocalSessionRunner.new core).accumulator = 0 := rfl
  have hnewnone : (LocalSessionRunner.new core).loop_start = none := rfl
  rw [hnew0, zero_add] at g2
  have hle : ((runSequence stepCore fps fuel frames
      (LocalSessionRunner.new core)).2.1 : ℚ)
      ≤ (frames.map Prod.fst).sum * (fps : ℚ) := by
    have hstep : ((runSequence stepCore fps fuel frames
        (LocalSessionRunner.new core)).2.1 : ℚ) * STEP fps
        ≤ (frames.map Prod.fst).sum := by linarith
    rw [STEP, mul_one_div] at hstep
    exact (div_le_iff₀ hfpsQ).mp hstep
  have hfl1 : ((runSequence stepCore fps fuel frames
      (LocalSessionRunner.new core)).2.1 : ℤ)
      ≤ ⌊(frames.map Prod.fst).sum * (fps : ℚ)⌋ := by
    apply Int.le_floor.mpr
    push_cast
    exact hle
  constructor
  · rw [hdiv]
    exact hfl1
  · intro ha
    have heq := g3 hnewnone ha hfin
    rw [hnew0, zero_add] at heq
    have hacclt := (g4 hfin hnewnone
      (by rw [hnew0]; exact STEP_pos hfps)).2
    have hlt : (frames.map Prod.fst).sum * (fps : ℚ)
        < ((runSequence stepCore fps fuel frames
            (LocalSessionRunner.new core)).2.1 : ℚ) + 1 := by
      have h1 : (frames.map Prod.fst).sum
          < (((runSequence stepCore fps fuel frames
              (LocalSessionRunner.new core)).2.1 : ℚ) + 1) * STEP fps := by
        rw [add_mul, one_mul]
        linarith
      rw [STEP, mul_one_div] at h1
      exact (lt_div_iff₀ hfpsQ).mp h1
    have hfl2 : ⌊(frames.map Prod.fst).sum * (fps : ℚ)⌋
        < ((runSequence stepCore fps fuel frames
            (LocalSessionRunner.new core)).2.1 : ℤ) + 1 := by
      apply Int.floor_lt.mpr
      push_cast
      exact hlt
    rw [hdiv]
    omega

/-- Witness for C1 at a concrete input: one frame of `1/30` s at 60 FPS
fires exactly two steps, `⌊(1/30) / (1/60)⌋ = 2`. -/
theorem c1_fixed_step_fidelity_witness :
    (runSequence id 60 3 [((1 : ℚ) / 30, fun _ : Nat => ((0 : ℚ), (0 : ℚ)))]
        (LocalSessionRunner.new sampleCore)).2.2.2 = true
    ∧ ((runSequence id 60 3 [((1 : ℚ) / 30, fun _ : Nat => ((0 : ℚ), (0 : ℚ)))]
          (LocalSessionRunner.new sampleCore)).2.1 : ℤ)
        ≤ ⌊(([((1 : ℚ) / 30, fun _ : Nat => ((0 : ℚ), (0 : ℚ)))].map Prod.fst).sum
            / STEP 60)⌋ := by
  have hd : ∀ f ∈ ([((1 : ℚ) / 30, fun _ : Nat => ((0 : ℚ), (0 : ℚ)))] :
      List (ℚ × (Nat → ℚ × ℚ))), 0 ≤ f.1 := by
    intro f hf
    rw [List.mem_singleton] at hf
    subst hf
    norm_num
  have hfin : (runSequence id 60 3
      [((1 : ℚ) / 30, fun _ : Nat => ((0 : ℚ), (0 : ℚ)))]
      (LocalSessionRunner.new sampleCore)).2.2.2 = true := by
    norm_num [runSequence, runFrame, LocalSessionRunner.run_criteria,
      run_criteria_aborts, accEnter, STEP, LocalSessionRunner.new]
  exact ⟨hfin, (c1_fixed_step_fidelity id 60 3 sampleCore
    [((1 : ℚ) / 30, fun _ : Nat => ((0 : ℚ), (0 : ℚ)))]
    (by norm_num) hd hfin).1⟩

/-- Witness for C4 at a concrete input: a fresh press of jump on slot 0 of a
local session. -/
theorem c4_edge_trigger_witness :
    (sampleRunner.core.player_inputs.players.getD 0 default).is_ai = false
    ∧ 0 < sampleRunner.core.player_inputs.players.length
    ∧ (collect_local_input [(0, ⟨true, false, false, (0, 0)⟩)] none
        (Session.loc sampleRunner)).1.get_player_input 0
      = update_control ((Session.loc sampleRunner).get_player_input 0)
          ⟨true, false, false, (0, 0)⟩ :=
  ⟨by decide, by decide,
    (c4_edge_trigger default ⟨true, false, false, (0, 0)⟩
        ⟨true, false, false, (0, 0)⟩ sampleRunner 0 none).2.2
      (by decide) (by decide)⟩

/-- C2: when `advance` reports `Disconnected`, `update_game` destroys the
session (it is not reinserted), reactivates every menu camera, resets the
menu page to `Home` and queues the `MainMenu` engine state, under which the
driver gate is closed so no further `advance` runs without a new start; on
`Ok` the session is reinserted intact, everything else untouched.  The
`Disconnected` result occurs exactly when the networked transport reports
the connection lost. -/
theorem c2_disconnect_teardown (stepCore : CoreSession → CoreSession)
    (netSteps : Nat) (w : World) (sess : Session)
    (hs : w.session = some sess) :
    (∀ r, sess = Session.networked r → r.disconnected = true →
      ∃ w', update_game stepCore netSteps w = some w'
        ∧ w'.session = none
        ∧ w'.menu_cameras = w.menu_cameras.map (fun _ => true)
        ∧ w'.menu_page = some MenuPage.Home
        ∧ w'.next_engine_state = some EngineState.MainMenu
        ∧ driver_gate (apply_next_states w') = false)
    ∧ ((sess.advance stepCore netSteps).2 = Except.ok () →
        update_game stepCore netSteps w
          = some { w with session := some (sess.advance stepCore netSteps).1 })
    ∧ ((sess.advance stepCore netSteps).2
          = Except.error SessionError.Disconnected
        ↔ ∃ r, sess = Session.networked r ∧ r.disconnected = true) := by
  refine ⟨?_, ?_, ?_⟩
  · intro r hr hd
    subst hr
    have hupd : update_game stepCore netSteps w
        = some { w with
            session := none
            menu_cameras := w.menu_cameras.map (fun _ => true)
            menu_page := some MenuPage.Home
            next_engine_state := some EngineState.MainMenu
            next_in_game_state := some InGameState.Playing } := by
      simp only [update_game, hs, Session.advance, hd, if_true]
    exact ⟨_, hupd, rfl, rfl, rfl, rfl,
      by simp [driver_gate, apply_next_states]⟩
  · intro hok
    rcases hadv : sess.advance stepCore netSteps with ⟨s2, res⟩
    rw [hadv] at hok
    simp only at hok
    subst hok
    simp only [update_game, hs, hadv]
  · constructor
    · intro herr
      cases sess with
      | loc r =>
        exfalso
        simp [Session.advance, LocalSessionRunner.advance] at herr
      | networked r =>
        by_cases hd : r.disconnected
        · exact ⟨r, rfl, hd⟩
        · exfalso
          simp [Session.advance, hd] at herr
    · rintro ⟨r, hr, hd⟩
      subst hr
      simp [Session.advance, hd]

/-- Witness for C2 at a concrete input: a disconnected networked session in
an in-game world. -/
theorem c2_disconnect_teardown_witness :
    sampleDiscWorld.session = some (Session.networked
      { core := sampleCore, local_player_idx := 1, disconnected := true })
    ∧ ∃ w', update_game id 0 sampleDiscWorld = some w'
        ∧ w'.session = none
        ∧ w'.menu_cameras = sampleDiscWorld.menu_cameras.map (fun _ => true)
        ∧ w'.menu_page = some MenuPage.Home
        ∧ w'.next_engine_state = some EngineState.MainMenu
        ∧ driver_gate (apply_next_states w') = false :=
  ⟨rfl, (c2_disconnect_teardown id 0 sampleDiscWorld
      (Session.networked
        { core := sampleCore, local_player_idx := 1, disconnected := true })
      rfl).1
    { core := sampleCore, local_player_idx := 1, disconnected := true }
    rfl rfl⟩

end Jumpy
